import Mathlib

/-!
# gcal-cli: OAuth2 token cache and the `list` / `add` commands

A shallow embedding of `main.go`.  The program is a sequence of effects on
the outside world (two local files, standard input and output, the OAuth2
token endpoint and the calendar service), so every Go function becomes a
state transformer over an explicit `World`.  Each effect is also appended
to a log (`World.trace`), which is how statements such as "no request is
made" or "exactly one exchange" are expressed.

Library code that is not part of the repository (the JSON codec of
`encoding/json`, `google.ConfigFromJSON`, `Config.AuthCodeURL`,
`calendar.NewService`) is taken as a parameter (`Lib`); the answers of the
remote parties are fields of the `World`.
-/

namespace GCal

/-! ## Data -/

/-- Token of `golang.org/x/oauth2`, with the four fields the credential
store persists.  The expiry instant is kept as its RFC 3339 text. -/
structure Token where
  AccessToken : String
  TokenType : String
  RefreshToken : String
  Expiry : String
  deriving DecidableEq, Repr

/-- Client configuration as `oauth2.Config` holds it. -/
structure Config where
  ClientID : String
  ClientSecret : String
  AuthURL : String
  TokenURL : String
  RedirectURL : String
  Scopes : List String
  deriving DecidableEq, Repr

/-- Result of `config.Client(ctx, tok)`: an HTTP client bound to a
configuration and carrying a token. -/
structure Client where
  config : Config
  token : Token
  deriving DecidableEq, Repr

/-- Start or end of an event, `calendar.EventDateTime`. -/
structure EventDateTime where
  Date : String
  DateTime : String
  TimeZone : String
  deriving DecidableEq, Repr

/-- Fields of `calendar.Event` the program reads or writes.  `Start` and
`End` are pointers in Go, hence optional here. -/
structure Event where
  Summary : String
  Description : String
  Start : Option EventDateTime
  End : Option EventDateTime
  HtmlLink : String
  deriving DecidableEq, Repr

/-- Parameters of one `Events.List` call. -/
structure ListCall where
  calendarId : String
  showDeleted : Bool
  singleEvents : Bool
  timeMin : String
  maxResults : Nat
  orderBy : String
  deriving DecidableEq, Repr

/-- Service handle returned by `calendar.NewService`. -/
structure Service where
  client : Client
  deriving DecidableEq, Repr

/-- Flags of the `add` command as read by `cmd.Flags().GetString`. -/
structure AddFlags where
  title : String
  start : String
  end_ : String
  desc : String
  deriving DecidableEq, Repr

/-- Regular file: its bytes and its permission bits. -/
structure File where
  content : String
  mode : Nat
  deriving DecidableEq, Repr

/-- Observable effects, in the order the process performs them. -/
inductive Effect where
  | openRead (path : String)
  | openWrite (path : String) (perm : Nat)
  | write (path : String) (data : String)
  | print (s : String)
  | logFatal (msg : String)
  | scan
  | exchange (config : Config) (code : String)
  | eventsList (client : Client) (call : ListCall)
  | eventsInsert (client : Client) (calendarId : String) (event : Event)
  deriving DecidableEq, Repr

/-- Library functions the program calls and that live outside the
repository.  `jsonEncode` gives the bytes `Encoder.Encode` writes for a
token (or its marshalling error), `jsonDecode` what `Decoder.Decode` makes
of the bytes of a file. -/
structure Lib where
  jsonEncode : Token → Except String String
  jsonDecode : String → Except String Token
  configFromJSON : String → List String → Except String Config
  authCodeURL : Config → String → String → String
  newService : Client → Except String Service

/-- Everything outside the process.  `files`, `stdin` and `trace` change as
the program runs; the remaining fields say how the environment answers.
The process runs as the unprivileged owner of the files of its working
directory: opening a file needs the owner permission bits, creating one
needs `dirWritable`, and a write is refused when `diskFull`.  `stdin` is
the list of whitespace-separated words still to be read. -/
structure World where
  files : String → Option File
  dirWritable : Bool
  diskFull : Bool
  stdin : List String
  now : String
  exchange : Config → String → Except String Token
  eventsList : Client → ListCall → Except String (List Event)
  eventsInsert : Client → String → Event → Except String Event
  trace : List Effect

/-- How a Go call ends: it returns, the process exits through
`log.Fatalf`, or the runtime panics. -/
inductive Outcome (α : Type) where
  | ok (a : α)
  | fatal
  | panicked
  deriving DecidableEq, Repr

/-- Effectful computation: from a world to an outcome and the world it
leaves behind. -/
def Prog (α : Type) : Type := World → Outcome α × World

/-- Sequencing: the second computation runs only when the first returns. -/
def Prog.bind {α β : Type} (p : Prog α) (f : α → Prog β) : Prog β :=
  fun w =>
    match p w with
    | (Outcome.ok a, w1) => f a w1
    | (Outcome.fatal, w1) => (Outcome.fatal, w1)
    | (Outcome.panicked, w1) => (Outcome.panicked, w1)

instance : Monad Prog where
  pure a := fun w => (Outcome.ok a, w)
  bind := Prog.bind

/-! ## Primitive effects -/

/-- Append one effect to the log. -/
def World.emit (w : World) (e : Effect) : World :=
  { w with trace := w.trace ++ [e] }

/-- Replace (or create) the file at a path. -/
def World.setFile (w : World) (path : String) (f : File) : World :=
  { w with files := fun p => if p = path then some f else w.files p }

/-- Owner read bit (0400). -/
def ownerRead (mode : Nat) : Bool := (mode / 256) % 2 = 1

/-- Owner write bit (0200). -/
def ownerWrite (mode : Nat) : Bool := (mode / 128) % 2 = 1

/-- Writes of `fmt.Printf` and `fmt.Println` to standard output. -/
def fmtPrint (s : String) : Prog Unit :=
  fun w => (Outcome.ok (), w.emit (Effect.print s))

/-- The call `log.Fatalf`: the message goes to standard error and the
process exits with status 1. -/
def logFatalf {α : Type} (msg : String) : Prog α :=
  fun w => (Outcome.fatal, w.emit (Effect.logFatal msg))

/-- Runtime panic on a nil pointer dereference. -/
def nilDereference {α : Type} : Prog α :=
  fun w => (Outcome.panicked, w)

/-- Opening a file read-only and reading it whole (`os.Open` followed by
reads, `ioutil.ReadFile`). -/
def osOpen (path : String) : Prog (Except String String) :=
  fun w =>
    let w1 := w.emit (Effect.openRead path)
    match w.files path with
    | none => (Outcome.ok (Except.error "no such file or directory"), w1)
    | some f =>
      if ownerRead f.mode then (Outcome.ok (Except.ok f.content), w1)
      else (Outcome.ok (Except.error "permission denied"), w1)

/-- The call `os.OpenFile(path, O_RDWR|O_CREATE|O_TRUNC, perm)`: an existing
file is emptied and keeps its mode, a missing one is created empty with
mode `perm` (the process umask is taken to leave the bits of `perm`). -/
def osOpenFile (path : String) (perm : Nat) : Prog (Except String Unit) :=
  fun w =>
    let w1 := w.emit (Effect.openWrite path perm)
    match w.files path with
    | some f =>
      if ownerRead f.mode && ownerWrite f.mode then
        (Outcome.ok (Except.ok ()), w1.setFile path { content := "", mode := f.mode })
      else (Outcome.ok (Except.error "permission denied"), w1)
    | none =>
      if w.dirWritable then
        (Outcome.ok (Except.ok ()), w1.setFile path { content := "", mode := perm })
      else (Outcome.ok (Except.error "permission denied"), w1)

/-- Write to the file opened at `path`: the bytes are appended, or the write
is refused and the file is left as it is. -/
def fileWrite (path : String) (data : String) : Prog (Except String Unit) :=
  fun w =>
    let w1 := w.emit (Effect.write path data)
    if w.diskFull then (Outcome.ok (Except.error "no space left on device"), w1)
    else
      match w.files path with
      | some f =>
        (Outcome.ok (Except.ok ()), w1.setFile path { content := f.content ++ data, mode := f.mode })
      | none => (Outcome.ok (Except.error "bad file descriptor"), w1)

/-- The call `fmt.Scan(&s)`: the next word of standard input, or an error
at end of input. -/
def fmtScan : Prog (Except String String) :=
  fun w =>
    let w1 := w.emit Effect.scan
    match w.stdin with
    | [] => (Outcome.ok (Except.error "EOF"), w1)
    | code :: rest => (Outcome.ok (Except.ok code), { w1 with stdin := rest })

/-- The call `config.Exchange(ctx, code)`: one round trip to the token
endpoint. -/
def configExchange (config : Config) (code : String) : Prog (Except String Token) :=
  fun w => (Outcome.ok (w.exchange config code), w.emit (Effect.exchange config code))

/-- The call `time.Now().Format(time.RFC3339)`. -/
def timeNow : Prog String :=
  fun w => (Outcome.ok w.now, w)

/-- The call `srv.Events.List(...)...Do()`. -/
def eventsListDo (srv : Service) (call : ListCall) : Prog (Except String (List Event)) :=
  fun w => (Outcome.ok (w.eventsList srv.client call), w.emit (Effect.eventsList srv.client call))

/-- The call `srv.Events.Insert(calendarId, event).Do()`. -/
def eventsInsertDo (srv : Service) (calendarId : String) (event : Event) :
    Prog (Except String Event) :=
  fun w =>
    (Outcome.ok (w.eventsInsert srv.client calendarId event),
      w.emit (Effect.eventsInsert srv.client calendarId event))

/-! ## The program -/

/-- Scope constant `calendar.CalendarReadonlyScope`. -/
def CalendarReadonlyScope : String := "https://www.googleapis.com/auth/calendar.readonly"

/-- Scope constant `calendar.CalendarEventsScope`. -/
def CalendarEventsScope : String := "https://www.googleapis.com/auth/calendar.events"

/-- Source function `tokenFromFile` (main.go 52-61). -/
def tokenFromFile (L : Lib) (file : String) : Prog (Except String Token) := do
  let f ← osOpen file
  match f with
  | Except.error err => pure (Except.error err)
  | Except.ok bytes => pure (L.jsonDecode bytes)

/-- Source function `saveToken` (main.go 64-72).  The result of `Encode` is
dropped, as in the source. -/
def saveToken (L : Lib) (path : String) (token : Token) : Prog Unit := do
  fmtPrint ("Salvando o arquivo de credenciais em: " ++ path ++ "\n")
  let f ← osOpenFile path 0o600
  match f with
  | Except.error err => logFatalf ("Não foi possível salvar o token: " ++ err)
  | Except.ok () =>
    match L.jsonEncode token with
    | Except.error _ => pure ()
    | Except.ok bytes =>
      let _ ← fileWrite path bytes
      pure ()

/-- Source function `getTokenFromWeb` (main.go 35-49). -/
def getTokenFromWeb (L : Lib) (config : Config) : Prog Token := do
  let authURL := L.authCodeURL config "state-token" "offline"
  fmtPrint ("Acesse esta URL no seu navegador para autorizar o app e cole o código de autorização aqui: \n"
    ++ authURL ++ "\n")
  let r ← fmtScan
  match r with
  | Except.error err => logFatalf ("Não foi possível ler o código de autorização: " ++ err)
  | Except.ok authCode =>
    let r ← configExchange config authCode
    match r with
    | Except.error err => logFatalf ("Não foi possível obter o token a partir do código: " ++ err)
    | Except.ok tok => pure tok

/-- Source function `getClient` (main.go 22-32). -/
def getClient (L : Lib) (config : Config) : Prog Client := do
  let tokFile := "token.json"
  let r ← tokenFromFile L tokFile
  match r with
  | Except.ok tok => pure { config := config, token := tok }
  | Except.error _ =>
    let tok ← getTokenFromWeb L config
    saveToken L tokFile tok
    pure { config := config, token := tok }

/-- Loop of `listCmd.Run` over `events.Items` (main.go 121-127). -/
def printEvents : List Event → Prog Unit
  | [] => pure ()
  | item :: rest => do
    match item.Start with
    | none => nilDereference
    | some start =>
      let date := start.DateTime
      let date := if date = "" then start.Date else date
      fmtPrint ("• " ++ item.Summary ++ " (" ++ date ++ ")\n")
      printEvents rest

/-- Source function `listCmd.Run` (main.go 88-129). -/
def listCmd (L : Lib) : Prog Unit := do
  let b ← osOpen "credentials.json"
  match b with
  | Except.error err => logFatalf ("Não foi possível ler o arquivo de credenciais: " ++ err)
  | Except.ok b =>
    match L.configFromJSON b [CalendarReadonlyScope] with
    | Except.error err =>
      logFatalf ("Não foi possível processar o arquivo de credenciais: " ++ err)
    | Except.ok config =>
      let client ← getClient L config
      match L.newService client with
      | Except.error err => logFatalf ("Não foi possível obter o cliente do Calendar: " ++ err)
      | Except.ok srv =>
        let t ← timeNow
        let events ← eventsListDo srv
          { calendarId := "primary", showDeleted := false, singleEvents := true,
            timeMin := t, maxResults := 10, orderBy := "startTime" }
        match events with
        | Except.error err =>
          logFatalf ("Não foi possível obter os próximos eventos: " ++ err)
        | Except.ok items =>
          fmtPrint "Próximos 10 eventos:\n"
          if items.length = 0 then
            fmtPrint "Nenhum evento próximo encontrado.\n"
          else
            printEvents items

/-- Source function `addCmd.Run` (main.go 136-184). -/
def addCmd (L : Lib) (flags : AddFlags) : Prog Unit := do
  let title := flags.title
  let start := flags.start
  let end_ := flags.end_
  let description := flags.desc
  if title = "" ∨ start = "" ∨ end_ = "" then
    logFatalf "Flags --title, --start e --end são obrigatórias."
  else
    let b ← osOpen "credentials.json"
    match b with
    | Except.error err => logFatalf ("Não foi possível ler o arquivo de credenciais: " ++ err)
    | Except.ok b =>
      match L.configFromJSON b [CalendarEventsScope] with
      | Except.error err =>
        logFatalf ("Não foi possível processar o arquivo de credenciais: " ++ err)
      | Except.ok config =>
        let client ← getClient L config
        match L.newService client with
        | Except.error err => logFatalf ("Não foi possível obter o cliente do Calendar: " ++ err)
        | Except.ok srv =>
          let event : Event :=
            { Summary := title, Description := description,
              Start := some { Date := "", DateTime := start, TimeZone := "America/Sao_Paulo" },
              End := some { Date := "", DateTime := end_, TimeZone := "America/Sao_Paulo" },
              HtmlLink := "" }
          let calendarId := "primary"
          let r ← eventsInsertDo srv calendarId event
          match r with
          | Except.error err => logFatalf ("Não foi possível criar o evento: " ++ err)
          | Except.ok event =>
            fmtPrint ("Evento criado com sucesso! Link: " ++ event.HtmlLink ++ "\n")

/-! ## Vocabulary of the specification -/

/-- Append several effects to the log. -/
def World.emitAll (w : World) (es : List Effect) : World :=
  { w with trace := w.trace ++ es }

/-- Strings written to standard output, in order. -/
def printed (es : List Effect) : List String :=
  es.filterMap fun e =>
    match e with
    | Effect.print s => some s
    | _ => none

/-- The value the specification calls `when`: the precise timestamp if
there is one, otherwise the date. -/
def specWhen (e : Event) : String :=
  match e.Start with
  | none => ""
  | some s => if s.DateTime = "" then s.Date else s.DateTime

/-- The line the specification asks for, `• <title> (<when>)`. -/
def specLine (e : Event) : String :=
  "• " ++ e.Summary ++ " (" ++ specWhen e ++ ")\n"

/-- Requests to the calendar service. -/
def Effect.isApiCall : Effect → Bool
  | Effect.eventsList _ _ => true
  | Effect.eventsInsert _ _ _ => true
  | _ => false

/-- Insert requests to the calendar service. -/
def Effect.isInsert : Effect → Bool
  | Effect.eventsInsert _ _ _ => true
  | _ => false

/-- Round trips to the token endpoint. -/
def Effect.isExchange : Effect → Bool
  | Effect.exchange _ _ => true
  | _ => false

/-- A token is well formed for a codec when the codec serialises it and
reads the serialisation back as the same token. -/
def WellFormed (L : Lib) (tok : Token) : Prop :=
  ∃ bytes, L.jsonEncode tok = Except.ok bytes ∧ L.jsonDecode bytes = Except.ok tok

/-- The file at `path` can be opened for reading and writing, or created. -/
def CanOpenRW (w : World) (path : String) : Prop :=
  match w.files path with
  | some f => ownerRead f.mode = true ∧ ownerWrite f.mode = true
  | none => w.dirWritable = true

instance (w : World) (path : String) : Decidable (CanOpenRW w path) :=
  match h : w.files path with
  | some f =>
    decidable_of_iff (ownerRead f.mode = true ∧ ownerWrite f.mode = true) (by simp [CanOpenRW, h])
  | none => decidable_of_iff (w.dirWritable = true) (by simp [CanOpenRW, h])

/-- The round trip of the credential store at one world: `saveToken` returns
and `tokenFromFile` right after it returns the same token without error. -/
def RoundTrip (L : Lib) (path : String) (tok : Token) (w : World) : Prop :=
  ∃ w1 w2, saveToken L path tok w = (Outcome.ok (), w1) ∧
    tokenFromFile L path w1 = (Outcome.ok (Except.ok tok), w2)

/-- The event `addCmd` submits for given flags. -/
def draftEvent (flags : AddFlags) : Event :=
  { Summary := flags.title, Description := flags.desc,
    Start := some { Date := "", DateTime := flags.start, TimeZone := "America/Sao_Paulo" },
    End := some { Date := "", DateTime := flags.end_, TimeZone := "America/Sao_Paulo" },
    HtmlLink := "" }

/-- The list request `listCmd` submits at a given instant. -/
def listCall (t : String) : ListCall :=
  { calendarId := "primary", showDeleted := false, singleEvents := true,
    timeMin := t, maxResults := 10, orderBy := "startTime" }

/-- The prompt `getTokenFromWeb` prints for a configuration. -/
def authPrompt (L : Lib) (config : Config) : String :=
  "Acesse esta URL no seu navegador para autorizar o app e cole o código de autorização aqui: \n"
    ++ L.authCodeURL config "state-token" "offline" ++ "\n"

/-- The last effect of `add`: the line with the link, or the fatal message. -/
def insertReport (r : Except String Event) : Effect :=
  match r with
  | Except.ok created =>
    Effect.print ("Evento criado com sucesso! Link: " ++ created.HtmlLink ++ "\n")
  | Except.error err => Effect.logFatal ("Não foi possível criar o evento: " ++ err)

/-- Result of a call with the value it returns replaced. -/
def Outcome.map {α β : Type} (f : α → β) : Outcome α → Outcome β
  | Outcome.ok a => Outcome.ok (f a)
  | Outcome.fatal => Outcome.fatal
  | Outcome.panicked => Outcome.panicked

/-! ## A concrete library and concrete worlds

Used to evaluate the program on examples. -/

/-- JSON escaping of quote and backslash inside a string. -/
def jsonEscape : List Char → List Char
  | [] => []
  | c :: cs =>
    if c = '"' ∨ c = '\\' then '\\' :: c :: jsonEscape cs else c :: jsonEscape cs

/-- Reads a JSON string body up to its closing quote: the decoded
characters and what follows the quote. -/
def jsonReadString : List Char → Option (List Char × List Char)
  | [] => none
  | c :: rest =>
    if c = '"' then some ([], rest)
    else if c = '\\' then
      match rest with
      | [] => none
      | d :: rest2 =>
        match jsonReadString rest2 with
        | none => none
        | some (s, r) => some (d :: s, r)
    else
      match jsonReadString rest with
      | none => none
      | some (s, r) => some (c :: s, r)

/-- Strips a literal from the front of the input. -/
def dropLit : List Char → List Char → Option (List Char)
  | [], s => some s
  | _ :: _, [] => none
  | p :: ps, c :: cs => if p = c then dropLit ps cs else none

/-- A string member that `omitempty` may have left out. -/
def jsonOptField (key : String) (s : List Char) : Option (String × List Char) :=
  match dropLit (",\"" ++ key ++ "\":\"").data s with
  | none => some ("", s)
  | some r =>
    match jsonReadString r with
    | none => none
    | some (v, r2) => some (String.mk v, r2)

/-- A JSON string literal. -/
def jsonStr (s : String) : String :=
  "\"" ++ String.mk (jsonEscape s.data) ++ "\""

/-- The document `Encoder.Encode` writes for a token: the members in
declaration order, empty `token_type` and `refresh_token` omitted, and a
final newline. -/
def sampleEncode (t : Token) : String :=
  "\x7b\"access_token\":" ++ jsonStr t.AccessToken
    ++ (if t.TokenType = "" then "" else ",\"token_type\":" ++ jsonStr t.TokenType)
    ++ (if t.RefreshToken = "" then "" else ",\"refresh_token\":" ++ jsonStr t.RefreshToken)
    ++ ",\"expiry\":" ++ jsonStr t.Expiry ++ "\x7d\n"

/-- Reader for documents in the layout of `sampleEncode`. -/
def sampleDecode (s : String) : Except String Token :=
  if s.data = [] then Except.error "EOF" else
  match dropLit "\x7b\"access_token\":\"".data s.data with
  | none => Except.error "invalid character"
  | some r =>
    match jsonReadString r with
    | none => Except.error "unexpected end of JSON input"
    | some (a, r) =>
      match jsonOptField "token_type" r with
      | none => Except.error "unexpected end of JSON input"
      | some (tt, r) =>
        match jsonOptField "refresh_token" r with
        | none => Except.error "unexpected end of JSON input"
        | some (rt, r) =>
          match dropLit ",\"expiry\":\"".data r with
          | none => Except.error "invalid character"
          | some r =>
            match jsonReadString r with
            | none => Except.error "unexpected end of JSON input"
            | some (e, r) =>
              match dropLit "\x7d".data r with
              | none => Except.error "invalid character"
              | some _ =>
                Except.ok
                  { AccessToken := String.mk a, TokenType := tt, RefreshToken := rt,
                    Expiry := String.mk e }

/-- A concrete library. -/
def sampleLib : Lib :=
  { jsonEncode := fun t => Except.ok (sampleEncode t)
    jsonDecode := sampleDecode
    configFromJSON := fun b scopes =>
      if b = "" then Except.error "unexpected end of JSON input"
      else
        Except.ok
          { ClientID := b, ClientSecret := "secret",
            AuthURL := "https://accounts.google.com/o/oauth2/auth",
            TokenURL := "https://oauth2.googleapis.com/token",
            RedirectURL := "http://localhost", Scopes := scopes }
    authCodeURL := fun c state access =>
      c.AuthURL ++ "?access_type=" ++ access ++ "&client_id=" ++ c.ClientID ++ "&state=" ++ state
    newService := fun c => Except.ok { client := c } }

/-- Configuration `sampleLib` reads from the sample credentials file. -/
def sampleConfig (scopes : List String) : Config :=
  { ClientID := "client-1", ClientSecret := "secret",
    AuthURL := "https://accounts.google.com/o/oauth2/auth",
    TokenURL := "https://oauth2.googleapis.com/token",
    RedirectURL := "http://localhost", Scopes := scopes }

/-- The token the sample token endpoint hands out for the code `ABC123`. -/
def sampleToken : Token :=
  { AccessToken := "ya29.a0", TokenType := "Bearer", RefreshToken := "1//0g",
    Expiry := "2025-09-08T11:00:00-03:00" }

/-- The two events of the listing scenario. -/
def sampleEvents : List Event :=
  [ { Summary := "Standup", Description := "",
      Start := some { Date := "", DateTime := "2025-09-08T10:00:00-03:00", TimeZone := "" },
      End := none, HtmlLink := "" },
    { Summary := "Holiday", Description := "",
      Start := some { Date := "2025-09-09", DateTime := "", TimeZone := "" },
      End := none, HtmlLink := "" } ]

/-- First run: credentials present, no token file, the user pastes
`ABC123`, the service knows two events and echoes a link on insert. -/
def freshWorld : World :=
  { files := fun p => if p = "credentials.json" then some { content := "client-1", mode := 0o600 } else none
    dirWritable := true
    diskFull := false
    stdin := ["ABC123"]
    now := "2025-09-01T00:00:00-03:00"
    exchange := fun _ code =>
      if code = "ABC123" then Except.ok sampleToken else Except.error "invalid_grant"
    eventsList := fun _ _ => Except.ok sampleEvents
    eventsInsert := fun _ _ ev =>
      Except.ok { ev with HtmlLink := "https://www.google.com/calendar/event?eid=demo" }
    trace := [] }

/-- Later run: the token file written by a first run is present. -/
def cachedWorld : World :=
  freshWorld.setFile "token.json" { content := sampleEncode sampleToken, mode := 0o600 }

/-- Later run against a calendar without upcoming events. -/
def quietWorld : World :=
  { cachedWorld with eventsList := fun _ _ => Except.ok [] }

/-- First run with standard input at end of file. -/
def silentWorld : World :=
  { freshWorld with stdin := [] }

/-- First run in which the user pastes a code the endpoint rejects. -/
def badCodeWorld : World :=
  { freshWorld with stdin := ["WRONG"] }

/-- A token file is present, unreadable as a token and read-only (0400). -/
def readOnlyWorld : World :=
  freshWorld.setFile "token.json" { content := "", mode := 0o400 }

/-- A token file is present, unreadable as a token, with mode 0644. -/
def looseWorld : World :=
  freshWorld.setFile "token.json" { content := "garbage", mode := 0o644 }

/-- First run on a full disk. -/
def fullDiskWorld : World :=
  { freshWorld with diskFull := true }

/-- Later run against a service whose second event carries no start. -/
def noStartWorld : World :=
  { cachedWorld with
    eventsList := fun _ _ =>
      Except.ok
        [ { Summary := "Standup", Description := "",
            Start := some { Date := "", DateTime := "2025-09-08T10:00:00-03:00", TimeZone := "" },
            End := none, HtmlLink := "" },
          { Summary := "Draft", Description := "", Start := none, End := none, HtmlLink := "" },
          { Summary := "Holiday", Description := "",
            Start := some { Date := "2025-09-09", DateTime := "", TimeZone := "" },
            End := none, HtmlLink := "" } ] }

/-- Flags of the `add` scenario. -/
def demoFlags : AddFlags :=
  { title := "Demo", start := "2025-09-08T10:00:00-03:00", end_ := "2025-09-08T11:00:00-03:00",
    desc := "" }

/-! ## Basic facts about sequencing -/

@[simp] theorem Prog.bind_apply {α β : Type} (p : Prog α) (f : α → Prog β) (w : World) :
    (p >>= f) w =
      match p w with
      | (Outcome.ok a, w1) => f a w1
      | (Outcome.fatal, w1) => (Outcome.fatal, w1)
      | (Outcome.panicked, w1) => (Outcome.panicked, w1) := rfl

@[simp] theorem Prog.pure_apply {α : Type} (a : α) (w : World) :
    (pure a : Prog α) w = (Outcome.ok a, w) := rfl

theorem World.emit_emitAll (w : World) (e : Effect) (es : List Effect) :
    (w.emit e).emitAll es = w.emitAll (e :: es) := by
  simp [World.emit, World.emitAll]

theorem filterMap_some_specLine (items : List Event) :
    List.filterMap (fun x => some (specLine x)) items = List.map specLine items := by
  induction items with
  | nil => rfl
  | cons x xs ih => simp [ih]

/-- The loop prints one line per event when every event carries a start. -/
theorem printEvents_lines (items : List Event) (w : World)
    (hstart : ∀ e ∈ items, e.Start ≠ none) :
    printEvents items w =
      (Outcome.ok (), w.emitAll (items.map fun e => Effect.print (specLine e))) := by
  induction items generalizing w with
  | nil => simp [printEvents, World.emitAll]
  | cons item rest ih =>
    have h1 : item.Start ≠ none := hstart item (by simp)
    have h2 : ∀ e ∈ rest, e.Start ≠ none := fun e he => hstart e (by simp [he])
    cases hs : item.Start with
    | none => exact absurd hs h1
    | some s =>
      simp [printEvents, hs, fmtPrint, ih _ h2, World.emit_emitAll, specLine, specWhen]

/-! ## Claims -/

/-- C1. An `add` invocation in which title, start or end is empty exits
fatally at the validation step: the world it leaves differs from the one it
found only by the fatal log message, so no file was opened, nothing was
read from standard input, no code was exchanged and no request was sent. -/
theorem addCmd_empty_field_fatal (L : Lib) (flags : AddFlags) (w : World)
    (h : flags.title = "" ∨ flags.start = "" ∨ flags.end_ = "") :
    addCmd L flags w =
      (Outcome.fatal,
        w.emit (Effect.logFatal "Flags --title, --start e --end são obrigatórias.")) ∧
    (addCmd L flags w).2.files = w.files ∧
    (addCmd L flags w).2.stdin = w.stdin ∧
    (addCmd L flags w).2.trace =
      w.trace ++ [Effect.logFatal "Flags --title, --start e --end são obrigatórias."] := by
  have key : addCmd L flags w =
      (Outcome.fatal,
        w.emit (Effect.logFatal "Flags --title, --start e --end são obrigatórias.")) := by
    simp [addCmd, h, logFatalf]
  rw [key]
  simp [World.emit]

/-- Witness of C1: the end flag is empty on a first run. -/
theorem addCmd_empty_field_fatal_witness :
    (addCmd sampleLib { demoFlags with end_ := "" } freshWorld).2.trace =
      [Effect.logFatal "Flags --title, --start e --end são obrigatórias."] :=
  (addCmd_empty_field_fatal sampleLib { demoFlags with end_ := "" } freshWorld
    (Or.inr (Or.inr rfl))).2.2.2

/-- C2, as the claim states it, fails: the service returns three events,
the second without a start; `list` prints the header and the line of the
first event and then panics on the nil start, so the third event gets no
line and the output is not one line per event. -/
theorem listCmd_panics_on_event_without_start :
    noStartWorld.eventsList
        { config := sampleConfig [CalendarReadonlyScope], token := sampleToken }
        (listCall noStartWorld.now) =
      Except.ok
        [ { Summary := "Standup", Description := "",
            Start := some { Date := "", DateTime := "2025-09-08T10:00:00-03:00", TimeZone := "" },
            End := none, HtmlLink := "" },
          { Summary := "Draft", Description := "", Start := none, End := none, HtmlLink := "" },
          { Summary := "Holiday", Description := "",
            Start := some { Date := "2025-09-09", DateTime := "", TimeZone := "" },
            End := none, HtmlLink := "" } ] ∧
    (listCmd sampleLib noStartWorld).1 = Outcome.panicked ∧
    printed (listCmd sampleLib noStartWorld).2.trace =
      ["Próximos 10 eventos:\n", "• Standup (2025-09-08T10:00:00-03:00)\n"] ∧
    (printed (listCmd sampleLib noStartWorld).2.trace).length ≠ 1 + 3 := by
  refine ⟨rfl, rfl, rfl, ?_⟩
  decide

/-- C2, amended. When the remote service returns a non-empty list of events
each of which carries a start, `list` returns normally and what it does
after authorization is: the list request, the header, and then one print
per event, in the order returned, of the line `• <title> (<when>)`, where
`<when>` is the start DateTime if that is non-empty and otherwise the start
Date. -/
theorem listCmd_prints_each_event (L : Lib) (w w0 w1 : World) (b : String)
    (config : Config) (client : Client) (srv : Service) (items : List Event)
    (hcred : osOpen "credentials.json" w = (Outcome.ok (Except.ok b), w0))
    (hconf : L.configFromJSON b [CalendarReadonlyScope] = Except.ok config)
    (hauth : getClient L config w0 = (Outcome.ok client, w1))
    (hsrv : L.newService client = Except.ok srv)
    (hlist : w1.eventsList srv.client (listCall w1.now) = Except.ok items)
    (hne : items ≠ [])
    (hstart : ∀ e ∈ items, e.Start ≠ none) :
    listCmd L w =
      (Outcome.ok (),
        w1.emitAll
          ([Effect.eventsList srv.client (listCall w1.now),
            Effect.print "Próximos 10 eventos:\n"]
            ++ items.map fun e => Effect.print (specLine e))) ∧
    printed (listCmd L w).2.trace =
      printed w1.trace ++ "Próximos 10 eventos:\n" :: items.map specLine := by
  have hlist2 : w1.eventsList srv.client
      { calendarId := "primary", showDeleted := false, singleEvents := true,
        timeMin := w1.now, maxResults := 10, orderBy := "startTime" } = Except.ok items := hlist
  have key : listCmd L w =
      (Outcome.ok (),
        w1.emitAll
          ([Effect.eventsList srv.client (listCall w1.now),
            Effect.print "Próximos 10 eventos:\n"]
            ++ items.map fun e => Effect.print (specLine e))) := by
    simp [listCmd, hcred, hconf, hauth, hsrv, timeNow, eventsListDo, World.emit, hlist2,
      fmtPrint, hne, World.emitAll, listCall]
    rw [printEvents_lines _ _ hstart]
    simp [World.emitAll]
  refine ⟨key, ?_⟩
  rw [key]
  simp [World.emitAll, printed, List.filterMap_append, List.filterMap_map, Function.comp_def,
    filterMap_some_specLine]

/-- Witness of C2: the scenario with the events Standup and Holiday. -/
theorem listCmd_prints_each_event_witness :
    printed (listCmd sampleLib cachedWorld).2.trace =
      ["Próximos 10 eventos:\n", "• Standup (2025-09-08T10:00:00-03:00)\n",
        "• Holiday (2025-09-09)\n"] :=
  (listCmd_prints_each_event sampleLib cachedWorld
    (cachedWorld.emit (Effect.openRead "credentials.json"))
    ((cachedWorld.emit (Effect.openRead "credentials.json")).emit (Effect.openRead "token.json"))
    "client-1" (sampleConfig [CalendarReadonlyScope])
    { config := sampleConfig [CalendarReadonlyScope], token := sampleToken }
    { client := { config := sampleConfig [CalendarReadonlyScope], token := sampleToken } }
    sampleEvents rfl rfl rfl rfl rfl (by decide) (by decide)).2

/-- C3, as the claim states it, fails: with no upcoming event the command
prints two lines, the header and then the message. -/
theorem listCmd_no_events_prints_header :
    (listCmd sampleLib quietWorld).1 = Outcome.ok () ∧
    printed (listCmd sampleLib quietWorld).2.trace =
      ["Próximos 10 eventos:\n", "Nenhum evento próximo encontrado.\n"] ∧
    printed (listCmd sampleLib quietWorld).2.trace ≠ ["Nenhum evento próximo encontrado.\n"] := by
  refine ⟨rfl, rfl, ?_⟩
  decide

/-- C3, amended. When the remote service returns no upcoming event, `list`
returns normally and what it prints after authorization is the header line
followed by the message "Nenhum evento próximo encontrado." and nothing
else: no bullet line. -/
theorem listCmd_no_events (L : Lib) (w w0 w1 : World) (b : String)
    (config : Config) (client : Client) (srv : Service)
    (hcred : osOpen "credentials.json" w = (Outcome.ok (Except.ok b), w0))
    (hconf : L.configFromJSON b [CalendarReadonlyScope] = Except.ok config)
    (hauth : getClient L config w0 = (Outcome.ok client, w1))
    (hsrv : L.newService client = Except.ok srv)
    (hlist : w1.eventsList srv.client (listCall w1.now) = Except.ok []) :
    listCmd L w =
      (Outcome.ok (),
        w1.emitAll
          [Effect.eventsList srv.client (listCall w1.now),
            Effect.print "Próximos 10 eventos:\n",
            Effect.print "Nenhum evento próximo encontrado.\n"]) ∧
    printed (listCmd L w).2.trace =
      printed w1.trace ++ ["Próximos 10 eventos:\n", "Nenhum evento próximo encontrado.\n"] := by
  have hlist2 : w1.eventsList srv.client
      { calendarId := "primary", showDeleted := false, singleEvents := true,
        timeMin := w1.now, maxResults := 10, orderBy := "startTime" } = Except.ok [] := hlist
  have key : listCmd L w =
      (Outcome.ok (),
        w1.emitAll
          [Effect.eventsList srv.client (listCall w1.now),
            Effect.print "Próximos 10 eventos:\n",
            Effect.print "Nenhum evento próximo encontrado.\n"]) := by
    simp [listCmd, hcred, hconf, hauth, hsrv, timeNow, eventsListDo, World.emit, hlist2,
      fmtPrint, World.emitAll, listCall]
  refine ⟨key, ?_⟩
  rw [key]
  simp [World.emitAll, printed, List.filterMap_append]

/-- Witness of C3 amended: a later run against an empty calendar. -/
theorem listCmd_no_events_witness :
    printed (listCmd sampleLib quietWorld).2.trace =
      [] ++ ["Próximos 10 eventos:\n", "Nenhum evento próximo encontrado.\n"] :=
  (listCmd_no_events sampleLib quietWorld
    (quietWorld.emit (Effect.openRead "credentials.json"))
    ((quietWorld.emit (Effect.openRead "credentials.json")).emit (Effect.openRead "token.json"))
    "client-1" (sampleConfig [CalendarReadonlyScope])
    { config := sampleConfig [CalendarReadonlyScope], token := sampleToken }
    { client := { config := sampleConfig [CalendarReadonlyScope], token := sampleToken } }
    rfl rfl rfl rfl rfl).2

/-! ### The sample codec -/

theorem jsonReadString_escape (s rest : List Char) :
    jsonReadString (jsonEscape s ++ '"' :: rest) = some (s, rest) := by
  induction s with
  | nil =>
    rw [jsonEscape, List.nil_append]
    unfold jsonReadString
    simp
  | cons c cs ih =>
    by_cases hq : c = '"'
    · subst hq
      simp only [jsonEscape, true_or, if_true, List.cons_append]
      rw [jsonReadString]
      simp [ih]
    · by_cases hb : c = '\\'
      · subst hb
        simp only [jsonEscape, or_true, if_true, List.cons_append]
        rw [jsonReadString]
        simp [ih]
      · simp only [jsonEscape, hq, hb, or_self, if_false, List.cons_append]
        unfold jsonReadString
        simp [ih, hq, hb]

theorem jsonStr_data (s : String) (rest : List Char) :
    (jsonStr s).data ++ rest = '"' :: (jsonEscape s.data ++ '"' :: rest) := by
  simp [jsonStr, String.data_append]

/-- The sample codec reads back every token it has written. -/
theorem sampleDecode_encode (t : Token) : sampleDecode (sampleEncode t) = Except.ok t := by
  obtain ⟨a, tt, rt, e⟩ := t
  unfold sampleDecode sampleEncode
  by_cases h1 : tt = "" <;> by_cases h2 : rt = "" <;>
    simp only [h1, h2, if_true, if_false] <;>
    simp [String.data_append, jsonStr_data, dropLit, jsonReadString_escape, jsonOptField]

/-- Every token is well formed for the sample library. -/
theorem sampleLib_wellFormed (t : Token) : WellFormed sampleLib t :=
  ⟨sampleEncode t, rfl, sampleDecode_encode t⟩

/-! ### The credential store -/

/-- The load never fails the process and only adds the open to the log. -/
theorem tokenFromFile_world (L : Lib) (file : String) (w w1 : World)
    (r : Outcome (Except String Token)) (h : tokenFromFile L file w = (r, w1)) :
    w1 = w.emit (Effect.openRead file) ∧ ∃ x, r = Outcome.ok x := by
  unfold tokenFromFile osOpen at h
  simp only [Prog.bind_apply] at h
  cases hf : w.files file with
  | none =>
    simp [hf] at h
    exact ⟨h.2.symm, _, h.1.symm⟩
  | some f =>
    by_cases hr : ownerRead f.mode = true
    · simp [hf, hr] at h
      exact ⟨h.2.symm, _, h.1.symm⟩
    · simp [hf, hr] at h
      exact ⟨h.2.symm, _, h.1.symm⟩

/-- An open for reading only adds itself to the log. -/
theorem osOpen_world (path : String) (w w1 : World) (r : Outcome (Except String String))
    (h : osOpen path w = (r, w1)) : w1 = w.emit (Effect.openRead path) := by
  unfold osOpen at h
  cases hf : w.files path with
  | none =>
    simp [hf] at h
    exact h.2.symm
  | some f =>
    by_cases hr : ownerRead f.mode = true
    · simp [hf, hr] at h
      exact h.2.symm
    · simp [hf, hr] at h
      exact h.2.symm

/-- What `saveToken` does when the file can be opened, the token can be
serialised and the write is accepted: the file holds exactly the bytes of
the token, with the mode it had, or 0600 if it is new. -/
theorem saveToken_success (L : Lib) (path : String) (tok : Token) (w : World) (bytes : String)
    (henc : L.jsonEncode tok = Except.ok bytes) (hopen : CanOpenRW w path)
    (hdisk : w.diskFull = false) :
    saveToken L path tok w =
      (Outcome.ok (),
        ((w.emitAll
          [Effect.print ("Salvando o arquivo de credenciais em: " ++ path ++ "\n"),
            Effect.openWrite path 0o600, Effect.write path bytes]).setFile path
          { content := bytes,
            mode := match w.files path with
              | some f => f.mode
              | none => 0o600 })) := by
  unfold CanOpenRW at hopen
  cases hf : w.files path with
  | none =>
    rw [hf] at hopen
    simp [saveToken, fmtPrint, osOpenFile, fileWrite, World.emit, World.setFile, World.emitAll,
      hf, hopen, henc, hdisk]
    funext p
    by_cases hp : p = path <;> simp [hp]
  | some f =>
    rw [hf] at hopen
    simp [saveToken, fmtPrint, osOpenFile, fileWrite, World.emit, World.setFile, World.emitAll,
      hf, hopen.1, hopen.2, henc, hdisk]
    funext p
    by_cases hp : p = path <;> simp [hp]

/-- What `saveToken` does when the file can be opened and the write is
refused: it returns normally and leaves the file empty. -/
theorem saveToken_write_refused (L : Lib) (path : String) (tok : Token) (w : World)
    (bytes : String) (henc : L.jsonEncode tok = Except.ok bytes) (hopen : CanOpenRW w path)
    (hdisk : w.diskFull = true) :
    saveToken L path tok w =
      (Outcome.ok (),
        ((w.emitAll
          [Effect.print ("Salvando o arquivo de credenciais em: " ++ path ++ "\n"),
            Effect.openWrite path 0o600, Effect.write path bytes]).setFile path
          { content := "",
            mode := match w.files path with
              | some f => f.mode
              | none => 0o600 })) := by
  unfold CanOpenRW at hopen
  cases hf : w.files path with
  | none =>
    rw [hf] at hopen
    simp [saveToken, fmtPrint, osOpenFile, fileWrite, World.emit, World.setFile, World.emitAll,
      hf, hopen, henc, hdisk]
  | some f =>
    rw [hf] at hopen
    simp [saveToken, fmtPrint, osOpenFile, fileWrite, World.emit, World.setFile, World.emitAll,
      hf, hopen.1, hopen.2, henc, hdisk]

/-- What `saveToken` does when the file cannot be opened: the process
exits and the files are as they were. -/
theorem saveToken_open_refused (L : Lib) (path : String) (tok : Token) (w : World)
    (hopen : ¬ CanOpenRW w path) :
    saveToken L path tok w =
      (Outcome.fatal,
        w.emitAll
          [Effect.print ("Salvando o arquivo de credenciais em: " ++ path ++ "\n"),
            Effect.openWrite path 0o600,
            Effect.logFatal ("Não foi possível salvar o token: " ++ "permission denied")]) := by
  unfold CanOpenRW at hopen
  cases hf : w.files path with
  | none =>
    rw [hf] at hopen
    have h1 : w.dirWritable = false := by simpa using hopen
    simp [saveToken, fmtPrint, osOpenFile, logFatalf, World.emit, World.emitAll, hf, h1]
  | some f =>
    rw [hf] at hopen
    have h2 : (ownerRead f.mode && ownerWrite f.mode) = false := by
      cases h3 : ownerRead f.mode <;> cases h4 : ownerWrite f.mode <;> simp_all
    simp [saveToken, fmtPrint, osOpenFile, logFatalf, World.emit, World.emitAll, hf, h2]

/-- C4, as the claim states it, fails: when the token file exists and is
read-only, `saveToken` ends the process, so no load follows and no token
comes back, although the token is well formed. -/
theorem roundtrip_fails_on_read_only_file :
    WellFormed sampleLib sampleToken ∧
    (saveToken sampleLib "token.json" sampleToken readOnlyWorld).1 = Outcome.fatal ∧
    ¬ RoundTrip sampleLib "token.json" sampleToken readOnlyWorld := by
  refine ⟨sampleLib_wellFormed sampleToken, rfl, ?_⟩
  rintro ⟨w1, w2, h, -⟩
  have h1 : (saveToken sampleLib "token.json" sampleToken readOnlyWorld).1 = Outcome.ok () := by
    rw [h]
  have h2 : (saveToken sampleLib "token.json" sampleToken readOnlyWorld).1 = Outcome.fatal := rfl
  rw [h2] at h1
  exact Outcome.noConfusion h1

/-- C4, amended. For every well-formed token and every prior state in which
the file at the path can be opened for reading and writing (it is absent
and may be created, or it is present with the owner read and write bits,
whatever its content), when the write is accepted, `saveToken` returns and
`tokenFromFile` right after it returns no error and the token saved. -/
theorem saveToken_tokenFromFile_roundtrip (L : Lib) (path : String) (tok : Token) (w : World)
    (hwf : WellFormed L tok) (hopen : CanOpenRW w path) (hdisk : w.diskFull = false) :
    RoundTrip L path tok w := by
  obtain ⟨bytes, henc, hdec⟩ := hwf
  have hs := saveToken_success L path tok w bytes henc hopen hdisk
  refine ⟨(saveToken L path tok w).2,
    ((saveToken L path tok w).2).emit (Effect.openRead path), ?_, ?_⟩
  · rw [hs]
  · rw [hs]
    unfold CanOpenRW at hopen
    cases hf : w.files path with
    | none =>
      have h600 : ownerRead 384 = true := by decide
      simp [tokenFromFile, osOpen, World.setFile, World.emitAll, World.emit, hdec, h600]
    | some f =>
      rw [hf] at hopen
      simp [tokenFromFile, osOpen, World.setFile, World.emitAll, World.emit, hdec, hopen.1]

/-- Witness of C4 amended: a stale token file with mode 0644 is replaced. -/
theorem saveToken_tokenFromFile_roundtrip_witness :
    RoundTrip sampleLib "token.json" sampleToken looseWorld :=
  saveToken_tokenFromFile_roundtrip sampleLib "token.json" sampleToken looseWorld
    ⟨sampleEncode sampleToken, rfl, rfl⟩ (by decide) rfl

/-- C6, as the claim states it, fails: a token file that already exists
with mode 0644 is rewritten and still has mode 0644 when `saveToken` has
returned. -/
theorem saveToken_keeps_existing_mode :
    looseWorld.files "token.json" = some { content := "garbage", mode := 0o644 } ∧
    (saveToken sampleLib "token.json" sampleToken looseWorld).1 = Outcome.ok () ∧
    (saveToken sampleLib "token.json" sampleToken looseWorld).2.files "token.json" =
      some { content := sampleEncode sampleToken, mode := 0o644 } ∧
    (0o644 : Nat) ≠ 0o600 := by
  refine ⟨rfl, rfl, rfl, by decide⟩

/-- C6, amended. After `saveToken` returns: if no file was at the path, the
file now exists with mode 0600; if a file was there, it has been truncated
(it is empty or holds exactly the serialisation of the token, nothing of
what it held before) and it keeps the permission bits it had. In the
scenario of a missing token file and a valid pasted code, with the write
accepted, `getClient` returns and the token file exists with mode 0600 and
holds the exchanged token. -/
theorem saveToken_file_mode (L : Lib) :
    (∀ (path : String) (tok : Token) (w w1 : World),
      saveToken L path tok w = (Outcome.ok (), w1) →
        (w.files path = none →
          ∃ c, w1.files path = some { content := c, mode := 0o600 }) ∧
        (∀ f, w.files path = some f →
          ∃ c, w1.files path = some { content := c, mode := f.mode } ∧
            (c = "" ∨ L.jsonEncode tok = Except.ok c))) ∧
    (∀ (config : Config) (w : World) (code : String) (rest : List String) (tok : Token)
      (bytes : String),
      w.files "token.json" = none → w.dirWritable = true → w.diskFull = false →
      w.stdin = code :: rest → w.exchange config code = Except.ok tok →
      L.jsonEncode tok = Except.ok bytes →
        (getClient L config w).1 = Outcome.ok { config := config, token := tok } ∧
        (getClient L config w).2.files "token.json" =
          some { content := bytes, mode := 0o600 }) := by
  constructor
  · intro path tok w w1 h
    by_cases hopen : CanOpenRW w path
    · cases henc : L.jsonEncode tok with
      | error e =>
        unfold CanOpenRW at hopen
        cases hf : w.files path with
        | none =>
          rw [hf] at hopen
          simp [saveToken, fmtPrint, osOpenFile, World.emit, World.setFile, hf, hopen, henc] at h
          subst h
          simp
        | some f =>
          rw [hf] at hopen
          simp [saveToken, fmtPrint, osOpenFile, World.emit, World.setFile, hf, hopen.1,
            hopen.2, henc] at h
          subst h
          simp
      | ok bytes =>
        cases hd : w.diskFull with
        | false =>
          rw [saveToken_success L path tok w bytes henc hopen hd] at h
          simp only [Prod.mk.injEq, true_and] at h
          subst h
          constructor
          · intro hf
            simp [World.setFile, hf]
          · intro f hf
            simp [World.setFile, hf]
        | true =>
          rw [saveToken_write_refused L path tok w bytes henc hopen hd] at h
          simp only [Prod.mk.injEq, true_and] at h
          subst h
          constructor
          · intro hf
            simp [World.setFile, hf]
          · intro f hf
            simp [World.setFile, hf]
    · rw [saveToken_open_refused L path tok w hopen] at h
      simp at h
  · intro config w code rest tok bytes hf hdir hdisk hin hex henc
    have hopen : CanOpenRW
        { w with stdin := rest,
                 trace := w.trace ++ [Effect.openRead "token.json",
                   Effect.print (authPrompt L config), Effect.scan,
                   Effect.exchange config code] } "token.json" := by
      simp [CanOpenRW, hf, hdir]
    have hsave := saveToken_success L "token.json" tok _ bytes henc hopen hdisk
    simp [getClient, tokenFromFile, osOpen, getTokenFromWeb, fmtPrint, fmtScan, configExchange,
      World.emit, hf, hin, hex, authPrompt] at hsave ⊢
    simp [hsave, World.setFile]

/-- Witness of C6 amended: the first run with the pasted code `ABC123`. -/
theorem saveToken_file_mode_witness :
    (getClient sampleLib (sampleConfig [CalendarReadonlyScope]) freshWorld).1 =
        Outcome.ok { config := sampleConfig [CalendarReadonlyScope], token := sampleToken } ∧
    (getClient sampleLib (sampleConfig [CalendarReadonlyScope]) freshWorld).2.files "token.json" =
      some { content := sampleEncode sampleToken, mode := 0o600 } :=
  (saveToken_file_mode sampleLib).2 (sampleConfig [CalendarReadonlyScope]) freshWorld "ABC123" []
    sampleToken (sampleEncode sampleToken) rfl rfl rfl rfl rfl rfl

/-- C7: evaluation at the failing input. On a full disk `saveToken` returns
normally, logs no fatal error, and leaves a token file that is empty and so
does not hold the serialisation of the token; the load that follows fails. -/
theorem saveToken_returns_after_failed_write :
    (saveToken sampleLib "token.json" sampleToken fullDiskWorld).1 = Outcome.ok () ∧
    (saveToken sampleLib "token.json" sampleToken fullDiskWorld).2.files "token.json" =
      some { content := "", mode := 0o600 } ∧
    sampleLib.jsonEncode sampleToken ≠ Except.ok "" ∧
    (saveToken sampleLib "token.json" sampleToken fullDiskWorld).2.trace =
      [Effect.print "Salvando o arquivo de credenciais em: token.json\n",
        Effect.openWrite "token.json" 0o600,
        Effect.write "token.json" (sampleEncode sampleToken)] ∧
    (tokenFromFile sampleLib "token.json"
      (saveToken sampleLib "token.json" sampleToken fullDiskWorld).2).1 =
      Outcome.ok (Except.error "EOF") := by
  refine ⟨rfl, rfl, ?_, rfl, rfl⟩
  intro h
  have h2 : sampleEncode sampleToken = "" := by
    simpa [sampleLib] using h
  revert h2
  decide

/-! ### The authorizer -/

/-- With a token file that loads, `getClient` only reads it. -/
theorem getClient_cached (L : Lib) (config : Config) (w w1 : World) (tok : Token)
    (h : tokenFromFile L "token.json" w = (Outcome.ok (Except.ok tok), w1)) :
    getClient L config w =
      (Outcome.ok { config := config, token := tok },
        w.emit (Effect.openRead "token.json")) := by
  have hw := (tokenFromFile_world L "token.json" w w1 _ h).1
  subst hw
  simp [getClient, h]

/-- Without a loadable token file and with standard input at its end,
`getClient` exits after the prompt: no exchange, no write. -/
theorem getClient_scan_fails (L : Lib) (config : Config) (w w1 : World) (err : String)
    (h : tokenFromFile L "token.json" w = (Outcome.ok (Except.error err), w1))
    (hin : w.stdin = []) :
    getClient L config w =
      (Outcome.fatal,
        w.emitAll
          [Effect.openRead "token.json", Effect.print (authPrompt L config), Effect.scan,
            Effect.logFatal ("Não foi possível ler o código de autorização: " ++ "EOF")]) := by
  have hw := (tokenFromFile_world L "token.json" w w1 _ h).1
  subst hw
  simp [getClient, h, getTokenFromWeb, fmtPrint, fmtScan, logFatalf, World.emit, World.emitAll,
    hin, authPrompt]

/-- Without a loadable token file and with a code the endpoint rejects,
`getClient` exits after one exchange: no write, files untouched. -/
theorem getClient_exchange_fails (L : Lib) (config : Config) (w w1 : World)
    (err code e : String) (rest : List String)
    (h : tokenFromFile L "token.json" w = (Outcome.ok (Except.error err), w1))
    (hin : w.stdin = code :: rest) (hex : w.exchange config code = Except.error e) :
    getClient L config w =
      (Outcome.fatal,
        { w with
          stdin := rest
          trace := w.trace ++
            [Effect.openRead "token.json", Effect.print (authPrompt L config), Effect.scan,
              Effect.exchange config code,
              Effect.logFatal ("Não foi possível obter o token a partir do código: " ++ e)] }) := by
  have hw := (tokenFromFile_world L "token.json" w w1 _ h).1
  subst hw
  simp [getClient, h, getTokenFromWeb, fmtPrint, fmtScan, configExchange, logFatalf,
    World.emit, hin, hex, authPrompt]

/-- Without a loadable token file and with a code the endpoint accepts,
`getClient` hands the exchanged token to `saveToken` and, if that returns,
returns a client built from the token. -/
theorem getClient_exchange_succeeds (L : Lib) (config : Config) (w w1 : World)
    (err code : String) (rest : List String) (tok : Token)
    (h : tokenFromFile L "token.json" w = (Outcome.ok (Except.error err), w1))
    (hin : w.stdin = code :: rest) (hex : w.exchange config code = Except.ok tok) :
    getClient L config w =
      ((saveToken L "token.json" tok
          { w with
            stdin := rest
            trace := w.trace ++
              [Effect.openRead "token.json", Effect.print (authPrompt L config), Effect.scan,
                Effect.exchange config code] }).1.map
          (fun _ => { config := config, token := tok }),
        (saveToken L "token.json" tok
          { w with
            stdin := rest
            trace := w.trace ++
              [Effect.openRead "token.json", Effect.print (authPrompt L config), Effect.scan,
                Effect.exchange config code] }).2) := by
  have hw := (tokenFromFile_world L "token.json" w w1 _ h).1
  subst hw
  simp only [getClient, h, getTokenFromWeb, fmtPrint, fmtScan, configExchange,
    World.emit, hin, hex, authPrompt, Prog.bind_apply, Prog.pure_apply, List.append_assoc,
    List.singleton_append, List.cons_append, List.nil_append]
  generalize saveToken L "token.json" tok _ = r
  obtain ⟨o, w2⟩ := r
  cases o <;> rfl

/-- C5, as the claim states it, fails: with no token file and standard
input at its end, `getClient` prompts, fails to read a code and exits; it
performs no exchange and saves nothing. -/
theorem getClient_no_exchange_at_end_of_input :
    (tokenFromFile sampleLib "token.json" silentWorld).1 =
      Outcome.ok (Except.error "no such file or directory") ∧
    (getClient sampleLib (sampleConfig [CalendarReadonlyScope]) silentWorld).1 = Outcome.fatal ∧
    (getClient sampleLib (sampleConfig [CalendarReadonlyScope]) silentWorld).2.trace =
      [Effect.openRead "token.json",
        Effect.print (authPrompt sampleLib (sampleConfig [CalendarReadonlyScope])),
        Effect.scan,
        Effect.logFatal "Não foi possível ler o código de autorização: EOF"] ∧
    ((getClient sampleLib (sampleConfig [CalendarReadonlyScope]) silentWorld).2.trace.filter
      Effect.isExchange).length = 0 ∧
    (getClient sampleLib (sampleConfig [CalendarReadonlyScope]) silentWorld).2.files "token.json" =
      none := by
  refine ⟨rfl, rfl, rfl, rfl, rfl⟩

/-- C5, amended. If `tokenFromFile` loads a token from token.json,
`getClient` reads that file and does nothing else (no read of standard
input, no exchange, no write) and returns a client built from the loaded
token. If `tokenFromFile` returns an error, `getClient` prints the
authorization URL and reads standard input exactly once; if no code can be
read it exits fatally without an exchange; if a code is read it performs
exactly one exchange, exits fatally without saving when the exchange fails,
and when the exchange succeeds calls `saveToken` with the exchanged token and
returns a client built from it once `saveToken` has returned. -/
theorem getClient_authorization (L : Lib) (config : Config) (w w1 : World) :
    (∀ tok, tokenFromFile L "token.json" w = (Outcome.ok (Except.ok tok), w1) →
      getClient L config w =
        (Outcome.ok { config := config, token := tok },
          w.emit (Effect.openRead "token.json"))) ∧
    (∀ err, tokenFromFile L "token.json" w = (Outcome.ok (Except.error err), w1) →
      (w.stdin = [] →
        getClient L config w =
          (Outcome.fatal,
            w.emitAll
              [Effect.openRead "token.json", Effect.print (authPrompt L config), Effect.scan,
                Effect.logFatal ("Não foi possível ler o código de autorização: " ++ "EOF")])) ∧
      (∀ code rest e, w.stdin = code :: rest → w.exchange config code = Except.error e →
        getClient L config w =
          (Outcome.fatal,
            { w with
              stdin := rest
              trace := w.trace ++
                [Effect.openRead "token.json", Effect.print (authPrompt L config), Effect.scan,
                  Effect.exchange config code,
                  Effect.logFatal
                    ("Não foi possível obter o token a partir do código: " ++ e)] })) ∧
      (∀ code rest tok, w.stdin = code :: rest → w.exchange config code = Except.ok tok →
        getClient L config w =
          ((saveToken L "token.json" tok
              { w with
                stdin := rest
                trace := w.trace ++
                  [Effect.openRead "token.json", Effect.print (authPrompt L config),
                    Effect.scan, Effect.exchange config code] }).1.map
              (fun _ => { config := config, token := tok }),
            (saveToken L "token.json" tok
              { w with
                stdin := rest
                trace := w.trace ++
                  [Effect.openRead "token.json", Effect.print (authPrompt L config),
                    Effect.scan, Effect.exchange config code] }).2))) := by
  refine ⟨fun tok h => getClient_cached L config w w1 tok h, fun err h => ⟨?_, ?_, ?_⟩⟩
  · exact fun hin => getClient_scan_fails L config w w1 err h hin
  · exact fun code rest e hin hex => getClient_exchange_fails L config w w1 err code e rest h hin hex
  · exact fun code rest tok hin hex =>
      getClient_exchange_succeeds L config w w1 err code rest tok h hin hex

/-- Witness of C5 amended: on a first run with the pasted code `ABC123` the
log shows one prompt, one read, one exchange and then the save; on a later
run it shows the read of the token file only. -/
theorem getClient_authorization_witness :
    (getClient sampleLib (sampleConfig [CalendarReadonlyScope]) freshWorld).2.trace =
      [Effect.openRead "token.json",
        Effect.print (authPrompt sampleLib (sampleConfig [CalendarReadonlyScope])),
        Effect.scan,
        Effect.exchange (sampleConfig [CalendarReadonlyScope]) "ABC123",
        Effect.print "Salvando o arquivo de credenciais em: token.json\n",
        Effect.openWrite "token.json" 0o600,
        Effect.write "token.json" (sampleEncode sampleToken)] ∧
    getClient sampleLib (sampleConfig [CalendarReadonlyScope]) cachedWorld =
      (Outcome.ok { config := sampleConfig [CalendarReadonlyScope], token := sampleToken },
        cachedWorld.emit (Effect.openRead "token.json")) := by
  constructor
  · rw [((getClient_authorization sampleLib (sampleConfig [CalendarReadonlyScope]) freshWorld
      (freshWorld.emit (Effect.openRead "token.json"))).2 "no such file or directory" rfl).2.2
      "ABC123" [] sampleToken rfl rfl]
    rfl
  · exact (getClient_authorization sampleLib (sampleConfig [CalendarReadonlyScope]) cachedWorld
      (cachedWorld.emit (Effect.openRead "token.json"))).1 sampleToken rfl

/-- C8. When the token file cannot be loaded and the exchange of the code
read from standard input fails, `getClient` exits fatally: the log shows
exactly one exchange and neither the message nor the open of `saveToken`,
the files are as they were, and `list` and `add` end there, without any
request to the calendar service. -/
theorem getClient_failed_exchange_fatal (L : Lib) (config : Config) (w w1 : World)
    (err code e : String) (rest : List String)
    (h : tokenFromFile L "token.json" w = (Outcome.ok (Except.error err), w1))
    (hin : w.stdin = code :: rest) (hex : w.exchange config code = Except.error e) :
    (getClient L config w).1 = Outcome.fatal ∧
    (getClient L config w).2.files = w.files ∧
    (getClient L config w).2.trace =
      w.trace ++
        [Effect.openRead "token.json", Effect.print (authPrompt L config), Effect.scan,
          Effect.exchange config code,
          Effect.logFatal ("Não foi possível obter o token a partir do código: " ++ e)] ∧
    (∀ (w0 : World) (b : String),
      osOpen "credentials.json" w0 = (Outcome.ok (Except.ok b), w) →
      L.configFromJSON b [CalendarReadonlyScope] = Except.ok config →
        (listCmd L w0).1 = Outcome.fatal ∧
        (listCmd L w0).2.files = w0.files ∧
        (listCmd L w0).2.trace =
          w0.trace ++
            [Effect.openRead "credentials.json", Effect.openRead "token.json",
              Effect.print (authPrompt L config), Effect.scan, Effect.exchange config code,
              Effect.logFatal ("Não foi possível obter o token a partir do código: " ++ e)] ∧
        (listCmd L w0).2.trace.filter Effect.isApiCall = w0.trace.filter Effect.isApiCall) ∧
    (∀ (w0 : World) (b : String) (flags : AddFlags),
      flags.title ≠ "" → flags.start ≠ "" → flags.end_ ≠ "" →
      osOpen "credentials.json" w0 = (Outcome.ok (Except.ok b), w) →
      L.configFromJSON b [CalendarEventsScope] = Except.ok config →
        (addCmd L flags w0).1 = Outcome.fatal ∧
        (addCmd L flags w0).2.files = w0.files ∧
        (addCmd L flags w0).2.trace =
          w0.trace ++
            [Effect.openRead "credentials.json", Effect.openRead "token.json",
              Effect.print (authPrompt L config), Effect.scan, Effect.exchange config code,
              Effect.logFatal ("Não foi possível obter o token a partir do código: " ++ e)] ∧
        (addCmd L flags w0).2.trace.filter Effect.isApiCall =
          w0.trace.filter Effect.isApiCall) := by
  have key := getClient_exchange_fails L config w w1 err code e rest h hin hex
  refine ⟨by rw [key], by rw [key], by rw [key], ?_, ?_⟩
  · intro w0 b hcred hconf
    have hw := osOpen_world _ _ _ _ hcred
    have hl : listCmd L w0 = (Outcome.fatal, (getClient L config w).2) := by
      simp [listCmd, hcred, hconf, key]
    rw [hl, key, hw]
    simp [World.emit, Effect.isApiCall]
  · intro w0 b flags ht hs he hcred hconf
    have hw := osOpen_world _ _ _ _ hcred
    have hl : addCmd L flags w0 = (Outcome.fatal, (getClient L config w).2) := by
      simp [addCmd, ht, hs, he, hcred, hconf, key]
    rw [hl, key, hw]
    simp [World.emit, Effect.isApiCall]

/-- Witness of C8: the user pastes a code the endpoint rejects. -/
theorem getClient_failed_exchange_fatal_witness :
    (listCmd sampleLib badCodeWorld).1 = Outcome.fatal ∧
    (listCmd sampleLib badCodeWorld).2.files = badCodeWorld.files ∧
    (listCmd sampleLib badCodeWorld).2.trace =
      [] ++
        [Effect.openRead "credentials.json", Effect.openRead "token.json",
          Effect.print (authPrompt sampleLib (sampleConfig [CalendarReadonlyScope])),
          Effect.scan,
          Effect.exchange (sampleConfig [CalendarReadonlyScope]) "WRONG",
          Effect.logFatal
            ("Não foi possível obter o token a partir do código: " ++ "invalid_grant")] ∧
    (listCmd sampleLib badCodeWorld).2.trace.filter Effect.isApiCall =
      List.filter Effect.isApiCall [] :=
  (getClient_failed_exchange_fatal sampleLib (sampleConfig [CalendarReadonlyScope])
    (badCodeWorld.emit (Effect.openRead "credentials.json"))
    ((badCodeWorld.emit (Effect.openRead "credentials.json")).emit
      (Effect.openRead "token.json"))
    "no such file or directory" "WRONG" "invalid_grant" [] rfl rfl rfl).2.2.2.1
    badCodeWorld "client-1" rfl rfl

/-- The call `saveToken` sends no insert request. -/
theorem saveToken_inserts (L : Lib) (path : String) (tok : Token) (w : World) :
    (saveToken L path tok w).2.trace.filter Effect.isInsert =
      w.trace.filter Effect.isInsert := by
  by_cases hopen : CanOpenRW w path
  · cases henc : L.jsonEncode tok with
    | error e =>
      unfold CanOpenRW at hopen
      cases hf : w.files path with
      | none =>
        rw [hf] at hopen
        simp [saveToken, fmtPrint, osOpenFile, World.emit, World.setFile, hf, hopen, henc,
          Effect.isInsert]
      | some f =>
        rw [hf] at hopen
        simp [saveToken, fmtPrint, osOpenFile, World.emit, World.setFile, hf, hopen.1,
          hopen.2, henc, Effect.isInsert]
    | ok bytes =>
      cases hd : w.diskFull with
      | false =>
        rw [saveToken_success L path tok w bytes henc hopen hd]
        simp [World.setFile, World.emitAll, Effect.isInsert]
      | true =>
        rw [saveToken_write_refused L path tok w bytes henc hopen hd]
        simp [World.setFile, World.emitAll, Effect.isInsert]
  · rw [saveToken_open_refused L path tok w hopen]
    simp [World.emitAll, Effect.isInsert]

/-- The call `getClient` sends no insert request. -/
theorem getClient_inserts (L : Lib) (config : Config) (w : World) :
    (getClient L config w).2.trace.filter Effect.isInsert =
      w.trace.filter Effect.isInsert := by
  obtain ⟨hw, x, hx⟩ := tokenFromFile_world L "token.json" w _ _
    (Prod.mk.eta (p := tokenFromFile L "token.json" w)).symm
  have h : tokenFromFile L "token.json" w = (Outcome.ok x, w.emit (Effect.openRead "token.json")) := by
    rw [← hx, ← hw]
  cases x with
  | ok tok =>
    rw [getClient_cached L config w _ tok h]
    simp [World.emit, Effect.isInsert]
  | error err =>
    cases hin : w.stdin with
    | nil =>
      rw [getClient_scan_fails L config w _ err h hin]
      simp [World.emitAll, Effect.isInsert]
    | cons code rest =>
      cases hex : w.exchange config code with
      | error e =>
        rw [getClient_exchange_fails L config w _ err code e rest h hin hex]
        simp [Effect.isInsert]
      | ok tok =>
        rw [getClient_exchange_succeeds L config w _ err code rest tok h hin hex]
        simp only [saveToken_inserts]
        simp [Effect.isInsert]

/-- C9. With title, start and end non-empty, when the credentials are read,
authorization returns a client, the service is built and the insert
succeeds, `add` returns normally; after authorization it sends the insert
request against the calendar "primary" for the event made of the flags,
with the time zone "America/Sao_Paulo" on both ends, and prints the line
carrying the link of the event the service returned. That insert is the
only one of the whole run. -/
theorem addCmd_inserts_once (L : Lib) (flags : AddFlags) (w w0 w1 : World) (b : String)
    (config : Config) (client : Client) (srv : Service) (created : Event)
    (htitle : flags.title ≠ "") (hstart : flags.start ≠ "") (hend : flags.end_ ≠ "")
    (hcred : osOpen "credentials.json" w = (Outcome.ok (Except.ok b), w0))
    (hconf : L.configFromJSON b [CalendarEventsScope] = Except.ok config)
    (hauth : getClient L config w0 = (Outcome.ok client, w1))
    (hsrv : L.newService client = Except.ok srv)
    (hins : w1.eventsInsert srv.client "primary" (draftEvent flags) = Except.ok created) :
    addCmd L flags w =
      (Outcome.ok (),
        w1.emitAll
          [Effect.eventsInsert srv.client "primary"
              { Summary := flags.title, Description := flags.desc,
                Start := some
                  { Date := "", DateTime := flags.start, TimeZone := "America/Sao_Paulo" },
                End := some
                  { Date := "", DateTime := flags.end_, TimeZone := "America/Sao_Paulo" },
                HtmlLink := "" },
            Effect.print ("Evento criado com sucesso! Link: " ++ created.HtmlLink ++ "\n")]) ∧
    (addCmd L flags w).2.trace.filter Effect.isInsert =
      w.trace.filter Effect.isInsert ++
        [Effect.eventsInsert srv.client "primary" (draftEvent flags)] ∧
    printed (addCmd L flags w).2.trace =
      printed w1.trace ++ ["Evento criado com sucesso! Link: " ++ created.HtmlLink ++ "\n"] := by
  have hins2 : w1.eventsInsert srv.client "primary"
      { Summary := flags.title, Description := flags.desc,
        Start := some { Date := "", DateTime := flags.start, TimeZone := "America/Sao_Paulo" },
        End := some { Date := "", DateTime := flags.end_, TimeZone := "America/Sao_Paulo" },
        HtmlLink := "" } = Except.ok created := hins
  have key : addCmd L flags w =
      (Outcome.ok (),
        w1.emitAll
          [Effect.eventsInsert srv.client "primary"
              { Summary := flags.title, Description := flags.desc,
                Start := some
                  { Date := "", DateTime := flags.start, TimeZone := "America/Sao_Paulo" },
                End := some
                  { Date := "", DateTime := flags.end_, TimeZone := "America/Sao_Paulo" },
                HtmlLink := "" },
            Effect.print ("Evento criado com sucesso! Link: " ++ created.HtmlLink ++ "\n")]) := by
    simp [addCmd, htitle, hstart, hend, hcred, hconf, hauth, hsrv, eventsInsertDo, hins2,
      fmtPrint, World.emit, World.emitAll]
  have hw0 := osOpen_world _ _ _ _ hcred
  have hw1 : w1.trace.filter Effect.isInsert = w.trace.filter Effect.isInsert := by
    have h1 := getClient_inserts L config w0
    rw [hauth, hw0] at h1
    simpa [World.emit, Effect.isInsert] using h1
  refine ⟨key, ?_, ?_⟩
  · rw [key]
    simp [World.emitAll, List.filter_append, hw1, Effect.isInsert, draftEvent]
  · rw [key]
    simp [World.emitAll, printed, List.filterMap_append]

/-- Witness of C9: the `add` scenario on a later run. -/
theorem addCmd_inserts_once_witness :
    printed (addCmd sampleLib demoFlags cachedWorld).2.trace =
      [] ++ ["Evento criado com sucesso! Link: "
        ++ "https://www.google.com/calendar/event?eid=demo" ++ "\n"] :=
  (addCmd_inserts_once sampleLib demoFlags cachedWorld
    (cachedWorld.emit (Effect.openRead "credentials.json"))
    ((cachedWorld.emit (Effect.openRead "credentials.json")).emit (Effect.openRead "token.json"))
    "client-1" (sampleConfig [CalendarEventsScope])
    { config := sampleConfig [CalendarEventsScope], token := sampleToken }
    { client := { config := sampleConfig [CalendarEventsScope], token := sampleToken } }
    { draftEvent demoFlags with HtmlLink := "https://www.google.com/calendar/event?eid=demo" }
    (by decide) (by decide) (by decide) rfl rfl rfl rfl rfl).2.2

/-- A successful read tells what is in the file. -/
theorem osOpen_ok (path : String) (w w1 : World) (b : String)
    (h : osOpen path w = (Outcome.ok (Except.ok b), w1)) :
    ∃ f, w.files path = some f ∧ ownerRead f.mode = true ∧ f.content = b := by
  unfold osOpen at h
  cases hf : w.files path with
  | none => simp [hf] at h
  | some f =>
    by_cases hr : ownerRead f.mode = true
    · simp [hf, hr] at h
      exact ⟨f, rfl, hr, h.1⟩
    · simp [hf, hr] at h

/-- A readable file is read. -/
theorem osOpen_of_file (path : String) (w : World) (f : File)
    (hf : w.files path = some f) (hr : ownerRead f.mode = true) :
    osOpen path w = (Outcome.ok (Except.ok f.content), w.emit (Effect.openRead path)) := by
  simp [osOpen, hf, hr]

/-- The rendering loop leaves the files alone. -/
theorem printEvents_files (items : List Event) (w : World) :
    (printEvents items w).2.files = w.files := by
  induction items generalizing w with
  | nil => simp [printEvents]
  | cons item rest ih =>
    cases hs : item.Start with
    | none => simp [printEvents, hs, nilDereference]
    | some st => simp [printEvents, hs, fmtPrint, ih, World.emit]

/-- After authorization `list` leaves the files alone. -/
theorem listCmd_files (L : Lib) (w w0 w1 : World) (b : String) (config : Config)
    (client : Client)
    (hcred : osOpen "credentials.json" w = (Outcome.ok (Except.ok b), w0))
    (hconf : L.configFromJSON b [CalendarReadonlyScope] = Except.ok config)
    (hauth : getClient L config w0 = (Outcome.ok client, w1)) :
    (listCmd L w).2.files = w1.files := by
  cases hsrv : L.newService client with
  | error e => simp [listCmd, hcred, hconf, hauth, hsrv, logFatalf, World.emit]
  | ok srv =>
    cases hl : w1.eventsList srv.client
        { calendarId := "primary", showDeleted := false, singleEvents := true,
          timeMin := w1.now, maxResults := 10, orderBy := "startTime" } with
    | error e =>
      simp [listCmd, hcred, hconf, hauth, hsrv, timeNow, eventsListDo, hl, logFatalf,
        World.emit]
    | ok items =>
      by_cases hne : items = []
      · simp [listCmd, hcred, hconf, hauth, hsrv, timeNow, eventsListDo, hl, fmtPrint,
          World.emit, hne]
      · simp [listCmd, hcred, hconf, hauth, hsrv, timeNow, eventsListDo, hl, fmtPrint,
          World.emit, hne, printEvents_files]

/-- With a token file that loads, the whole run of `add` is: the two file
reads, the insert through the client carrying the loaded token, and the
report. -/
theorem addCmd_cached_trace (L : Lib) (flags : AddFlags) (w0 w w1 : World) (b : String)
    (config : Config) (tok : Token) (srv : Service)
    (htitle : flags.title ≠ "") (hstart : flags.start ≠ "") (hend : flags.end_ ≠ "")
    (hcred : osOpen "credentials.json" w0 = (Outcome.ok (Except.ok b), w))
    (hconf : L.configFromJSON b [CalendarEventsScope] = Except.ok config)
    (h : tokenFromFile L "token.json" w = (Outcome.ok (Except.ok tok), w1))
    (hsrv : L.newService { config := config, token := tok } = Except.ok srv) :
    (addCmd L flags w0).2.trace =
      w0.trace ++
        [Effect.openRead "credentials.json", Effect.openRead "token.json",
          Effect.eventsInsert srv.client "primary" (draftEvent flags),
          insertReport (w0.eventsInsert srv.client "primary" (draftEvent flags))] := by
  have hw := osOpen_world _ _ _ _ hcred
  have hauth := getClient_cached L config w w1 tok h
  have hev : w0.eventsInsert = w.eventsInsert := by rw [hw]; rfl
  have htr : w.trace = w0.trace ++ [Effect.openRead "credentials.json"] := by rw [hw]; rfl
  rw [hev]
  cases hins : w.eventsInsert srv.client "primary"
      { Summary := flags.title, Description := flags.desc,
        Start := some { Date := "", DateTime := flags.start, TimeZone := "America/Sao_Paulo" },
        End := some { Date := "", DateTime := flags.end_, TimeZone := "America/Sao_Paulo" },
        HtmlLink := "" } with
  | error e =>
    simp [addCmd, htitle, hstart, hend, hcred, hconf, hauth, hsrv, eventsInsertDo, hins,
      logFatalf, World.emit, draftEvent, insertReport, htr]
  | ok created =>
    simp [addCmd, htitle, hstart, hend, hcred, hconf, hauth, hsrv, eventsInsertDo, hins,
      fmtPrint, World.emit, draftEvent, insertReport, htr]

/-- A first `list` run that has to authorize leaves the exchanged token in
token.json, readable, and touches no other file. -/
theorem listCmd_caches_token (L : Lib) (wA wA0 wA1 : World) (b err code : String)
    (rest : List String) (config : Config) (tok : Token)
    (hcred : osOpen "credentials.json" wA = (Outcome.ok (Except.ok b), wA0))
    (hconf : L.configFromJSON b [CalendarReadonlyScope] = Except.ok config)
    (hload : tokenFromFile L "token.json" wA0 = (Outcome.ok (Except.error err), wA1))
    (hin : wA.stdin = code :: rest) (hex : wA.exchange config code = Except.ok tok)
    (hwf : WellFormed L tok) (hopen : CanOpenRW wA "token.json")
    (hdisk : wA.diskFull = false) :
    (∃ f, (listCmd L wA).2.files "token.json" = some f ∧ ownerRead f.mode = true ∧
      L.jsonDecode f.content = Except.ok tok) ∧
    ∀ p, p ≠ "token.json" → (listCmd L wA).2.files p = wA.files p := by
  obtain ⟨bytes, henc, hdec⟩ := hwf
  have hw := osOpen_world _ _ _ _ hcred
  have hin0 : wA0.stdin = code :: rest := by rw [hw]; exact hin
  have hex0 : wA0.exchange config code = Except.ok tok := by rw [hw]; exact hex
  have hfiles0 : wA0.files = wA.files := by rw [hw]; rfl
  have hg := getClient_exchange_succeeds L config wA0 wA1 err code rest tok hload hin0 hex0
  have hopen1 : CanOpenRW
      { wA0 with
        stdin := rest
        trace := wA0.trace ++
          [Effect.openRead "token.json", Effect.print (authPrompt L config), Effect.scan,
            Effect.exchange config code] } "token.json" := by
    unfold CanOpenRW at hopen ⊢
    simpa [hw, World.emit] using hopen
  have hdisk1 : wA0.diskFull = false := by rw [hw]; exact hdisk
  rw [saveToken_success L "token.json" tok _ bytes henc hopen1 hdisk1] at hg
  have hf := listCmd_files L wA wA0 _ b config _ hcred hconf hg
  rw [hf]
  constructor
  · refine ⟨{ content := bytes,
               mode := match wA.files "token.json" with
                 | some f => f.mode
                 | none => 0o600 }, by simp [World.setFile, hfiles0], ?_, hdec⟩
    unfold CanOpenRW at hopen
    cases hfa : wA.files "token.json" with
    | none =>
      show ownerRead 384 = true
      decide
    | some f =>
      rw [hfa] at hopen
      exact hopen.1
  · intro p hp
    simp [World.setFile, World.emitAll, hp, hfiles0]

/-- C10. For two configurations that differ only in their scopes and a
token file that loads, `getClient` leaves the same world in both runs (the
read of token.json is its only effect: no prompt, no read of standard input,
no exchange, no write) and both clients carry the loaded token. Hence `add`,
run where token.json loads, only reads the two files and sends its insert
through a client carrying the loaded token; and when a first `list` run has
authorized under the read-only scope and cached the exchanged token, a later
`add` run on the files that run left behind does exactly that with the
token `list` cached: no prompt, no read of standard input, no exchange and
no write of the token file. -/
theorem getClient_ignores_scopes (L : Lib) (config : Config) (scopes1 scopes2 : List String)
    (w w1 : World) (tok : Token)
    (h : tokenFromFile L "token.json" w = (Outcome.ok (Except.ok tok), w1)) :
    getClient L { config with Scopes := scopes1 } w =
      (Outcome.ok { config := { config with Scopes := scopes1 }, token := tok },
        w.emit (Effect.openRead "token.json")) ∧
    getClient L { config with Scopes := scopes2 } w =
      (Outcome.ok { config := { config with Scopes := scopes2 }, token := tok },
        w.emit (Effect.openRead "token.json")) ∧
    (getClient L { config with Scopes := scopes1 } w).2 =
      (getClient L { config with Scopes := scopes2 } w).2 ∧
    (getClient L { config with Scopes := scopes1 } w).1.map Client.token =
      (getClient L { config with Scopes := scopes2 } w).1.map Client.token ∧
    (∀ (w0 : World) (b : String) (flags : AddFlags) (cfgAdd : Config) (srv : Service),
      flags.title ≠ "" → flags.start ≠ "" → flags.end_ ≠ "" →
      osOpen "credentials.json" w0 = (Outcome.ok (Except.ok b), w) →
      L.configFromJSON b [CalendarEventsScope] = Except.ok cfgAdd →
      L.newService { config := cfgAdd, token := tok } = Except.ok srv →
        (addCmd L flags w0).2.trace =
          w0.trace ++
            [Effect.openRead "credentials.json", Effect.openRead "token.json",
              Effect.eventsInsert srv.client "primary" (draftEvent flags),
              insertReport (w0.eventsInsert srv.client "primary" (draftEvent flags))]) ∧
    (∀ (wA wA0 wA1 w2 : World) (b err code : String) (rest : List String)
      (cfgList cfgAdd : Config) (cached : Token) (flags : AddFlags) (srv : Service),
      osOpen "credentials.json" wA = (Outcome.ok (Except.ok b), wA0) →
      L.configFromJSON b [CalendarReadonlyScope] = Except.ok cfgList →
      tokenFromFile L "token.json" wA0 = (Outcome.ok (Except.error err), wA1) →
      wA.stdin = code :: rest → wA.exchange cfgList code = Except.ok cached →
      WellFormed L cached → CanOpenRW wA "token.json" → wA.diskFull = false →
      w2.files = (listCmd L wA).2.files →
      flags.title ≠ "" → flags.start ≠ "" → flags.end_ ≠ "" →
      L.configFromJSON b [CalendarEventsScope] = Except.ok cfgAdd →
      L.newService { config := cfgAdd, token := cached } = Except.ok srv →
        getClient L cfgAdd (w2.emit (Effect.openRead "credentials.json")) =
          (Outcome.ok { config := cfgAdd, token := cached },
            (w2.emit (Effect.openRead "credentials.json")).emit
              (Effect.openRead "token.json")) ∧
        (addCmd L flags w2).2.trace =
          w2.trace ++
            [Effect.openRead "credentials.json", Effect.openRead "token.json",
              Effect.eventsInsert srv.client "primary" (draftEvent flags),
              insertReport (w2.eventsInsert srv.client "primary" (draftEvent flags))]) := by
  have h1 := getClient_cached L { config with Scopes := scopes1 } w w1 tok h
  have h2 := getClient_cached L { config with Scopes := scopes2 } w w1 tok h
  refine ⟨h1, h2, ?_, ?_, ?_, ?_⟩
  · rw [h1, h2]
  · rw [h1, h2]
    rfl
  · intro w0 b flags cfgAdd srv ht hs he hcred hconf hsrv
    exact addCmd_cached_trace L flags w0 w w1 b cfgAdd tok srv ht hs he hcred hconf h hsrv
  · intro wA wA0 wA1 w2 b err code rest cfgList cfgAdd cached flags srv hcred hconfL hload hin
      hex hwf hopen hdisk hfiles ht hs he hconfA hsrv
    obtain ⟨⟨f, hf, hr, hdec⟩, hother⟩ :=
      listCmd_caches_token L wA wA0 wA1 b err code rest cfgList cached hcred hconfL hload hin hex
        hwf hopen hdisk
    obtain ⟨c, hc, hcr, hcb⟩ := osOpen_ok _ _ _ _ hcred
    have hc2 : w2.files "credentials.json" = some c := by
      rw [hfiles, hother _ (by decide), hc]
    have hcred2 := osOpen_of_file "credentials.json" w2 c hc2 hcr
    rw [hcb] at hcred2
    have hf2 : w2.files "token.json" = some f := by rw [hfiles, hf]
    have hload2 : tokenFromFile L "token.json" (w2.emit (Effect.openRead "credentials.json")) =
        (Outcome.ok (Except.ok cached),
          (w2.emit (Effect.openRead "credentials.json")).emit (Effect.openRead "token.json")) := by
      simp [tokenFromFile, osOpen, World.emit, hf2, hr, hdec]
    exact ⟨getClient_cached L cfgAdd _ _ cached hload2,
      addCmd_cached_trace L flags w2 _ _ b cfgAdd cached srv ht hs he hcred2 hconfA hload2 hsrv⟩

/-- Witness of C10: a first `list` run authorizes with the pasted code and
caches the token; `add`, run in the world that run leaves behind, reads the
two files and sends its insert with the cached token. -/
theorem getClient_ignores_scopes_witness :
    getClient sampleLib (sampleConfig [CalendarEventsScope]) (listCmd sampleLib freshWorld).2 =
      (Outcome.ok { config := sampleConfig [CalendarEventsScope], token := sampleToken },
        (listCmd sampleLib freshWorld).2.emit (Effect.openRead "token.json")) ∧
    (addCmd sampleLib demoFlags (listCmd sampleLib freshWorld).2).2.trace =
      (listCmd sampleLib freshWorld).2.trace ++
        [Effect.openRead "credentials.json", Effect.openRead "token.json",
          Effect.eventsInsert
            { config := sampleConfig [CalendarEventsScope], token := sampleToken } "primary"
            (draftEvent demoFlags),
          Effect.print
            "Evento criado com sucesso! Link: https://www.google.com/calendar/event?eid=demo\n"] :=
  ⟨(getClient_ignores_scopes sampleLib (sampleConfig []) [CalendarReadonlyScope]
      [CalendarEventsScope] (listCmd sampleLib freshWorld).2
      ((listCmd sampleLib freshWorld).2.emit (Effect.openRead "token.json"))
      sampleToken rfl).2.1,
    ((getClient_ignores_scopes sampleLib (sampleConfig []) [CalendarReadonlyScope]
      [CalendarEventsScope] (listCmd sampleLib freshWorld).2
      ((listCmd sampleLib freshWorld).2.emit (Effect.openRead "token.json"))
      sampleToken rfl).2.2.2.2.2
      freshWorld (freshWorld.emit (Effect.openRead "credentials.json"))
      ((freshWorld.emit (Effect.openRead "credentials.json")).emit
        (Effect.openRead "token.json"))
      (listCmd sampleLib freshWorld).2 "client-1" "no such file or directory" "ABC123" []
      (sampleConfig [CalendarReadonlyScope]) (sampleConfig [CalendarEventsScope]) sampleToken
      demoFlags
      { client := { config := sampleConfig [CalendarEventsScope], token := sampleToken } }
      rfl rfl rfl rfl rfl (sampleLib_wellFormed sampleToken) (by decide) rfl rfl
      (by decide) (by decide) (by decide) rfl rfl).2⟩

end GCal
